import Mathlib

/-!
Verification of the picoclaw core subsystems (message bus, agent loop,
MCP client) against their natural-language specification.  The Go source
is shallowly embedded: strings are Lean `String`s manipulated through
executable re-implementations of the `strings` package functions used by
the code, maps are association lists, channels and goroutine interactions
become explicit state-passing, and fallible calls return `Except`/`Option`.
-/

/- ## Go `strings` package model (over `List Char`, structural recursion) -/

/-- Character class used by Go's `strings.TrimSpace` (ASCII fragment, which
covers every string appearing in the development). -/
def goIsSpace (c : Char) : Bool :=
  c = ' ' || c = '\t' || c = '\n' || c = '\r' || c = '\x0b' || c = '\x0c'

/-- Drop leading space characters. -/
def dropLeadingSpace : List Char → List Char
  | [] => []
  | c :: cs => if goIsSpace c then dropLeadingSpace cs else c :: cs

/-- Go `strings.TrimSpace` on character lists: strip from both ends. -/
def trimChars (cs : List Char) : List Char :=
  (dropLeadingSpace (dropLeadingSpace cs.reverse).reverse)

/-- Go `strings.TrimSpace`. -/
def goTrimSpace (s : String) : String :=
  String.mk (trimChars s.data)

/-- Whether `pre` is a prefix of `cs` (Go `strings.HasPrefix`). -/
def charsStartWith : List Char → List Char → Bool
  | [], _ => true
  | _ :: _, [] => false
  | p :: ps, c :: cs => p = c && charsStartWith ps cs

/-- Go `strings.HasPrefix`. -/
def goHasPre (s pre : String) : Bool :=
  charsStartWith pre.data s.data

/-- Locate the first occurrence of `sep` in the input, returning the part
before it and the part after it. -/
def findSplit (sep : List Char) : List Char → Option (List Char × List Char)
  | [] => none
  | c :: cs =>
    if charsStartWith sep (c :: cs) then
      some ([], (c :: cs).drop sep.length)
    else
      match findSplit sep cs with
      | some (pre, post) => some (c :: pre, post)
      | none => none

/-- Fuel-driven splitting worker: splits the input at every occurrence of
`sep` (fuel bounds the number of produced pieces, set to the input length). -/
def splitFuel (sep : List Char) : Nat → List Char → List (List Char)
  | 0, input => [input]
  | fuel + 1, input =>
    match findSplit sep input with
    | none => [input]
    | some (pre, post) => pre :: splitFuel sep fuel post

/-- Go `strings.Split` (for the non-empty separators the source uses). -/
def goSplit (s sep : String) : List String :=
  if sep.data.isEmpty then [s]
  else (splitFuel sep.data s.data.length s.data).map String.mk

/-- Go `strings.Contains`. -/
def goContains (s sub : String) : Bool :=
  match sub.data with
  | [] => true
  | c :: cs =>
    (findSplit (c :: cs) s.data).isSome

/-- Join string pieces with a separator (Go `strings.Join`). -/
def goJoin (sep : String) : List String → String
  | [] => ""
  | [x] => x
  | x :: y :: rest => x ++ sep ++ goJoin sep (y :: rest)

/-- ASCII lowering of one character (the fragment of Go `strings.ToLower`
exercised by the source's tool names). -/
def lowerChar (c : Char) : Char :=
  if 'A' ≤ c && c ≤ 'Z' then Char.ofNat (c.toNat + 32) else c

/-- Go `strings.ToLower` (ASCII fragment). -/
def goToLower (s : String) : String :=
  String.mk (s.data.map lowerChar)

/-- Go `strings.ReplaceAll`: split on the pattern, join with the
replacement. -/
def goReplaceAll (s old new : String) : String :=
  goJoin new (goSplit s old)

/- ## Agent loop: MCP tool-name extraction and the session MCP policy
   (src/pkg/agent/loop.go) -/

/-- Translation of `extractMCPServerName` (loop.go).  Each Go
`if 〈prefix test〉 { if 〈length test〉 { return … } }` block falls through to
the next block when either test fails, which the chained conditions below
reproduce. -/
def extractMCPServerName (toolName : String) : String :=
  let name := goTrimSpace toolName
  if name = "" then ""
  else if goHasPre name "mcp." && (goSplit name ".").length ≥ 3 then
    (goSplit name ".").getD 1 ""
  else if goHasPre name "mcp_" && (goSplit name "_").length ≥ 3 then
    (goSplit name "_").getD 1 ""
  else if goContains name "__" && (goSplit name "__").length ≥ 2
      && (goSplit name "__").getD 0 "" = "mcp" then
    (goSplit name "__").getD 1 ""
  else ""

/-- Session MCP policy: the set of allowed MCP server names (the key set of
the Go `Allowed map[string]bool`). -/
structure SessionMCPPolicy where
  allowed : List String
deriving Repr, DecidableEq

/-- Translation of `isToolAllowedByPolicy` (loop.go). -/
def isToolAllowedByPolicy (toolName : String) (p : SessionMCPPolicy) : Bool :=
  if p.allowed.isEmpty then true
  else
    let mcpName := extractMCPServerName toolName
    if mcpName = "" then true
    else p.allowed.contains mcpName

/-- One tool definition as presented to the LLM; only the function name is
relevant to policy filtering (`d["function"]["name"]` in the Go code). -/
structure ToolDef where
  name : String
  description : String
deriving Repr, DecidableEq

/-- Translation of `getToolDefinitionsForPolicy` (loop.go): with an empty
policy the registry's definitions pass unfiltered, otherwise each
definition is kept iff `isToolAllowedByPolicy` accepts its name. -/
def getToolDefinitionsForPolicy (p : SessionMCPPolicy) (defs : List ToolDef) :
    List ToolDef :=
  if p.allowed.isEmpty then defs
  else defs.filter (fun d => isToolAllowedByPolicy d.name p)

/- ## Provider messages and the summarization trigger
   (src/pkg/agent/loop.go: estimateTokens, maybeSummarize) -/

/-- One tool call inside an assistant message (`providers.ToolCall` /
`ToolCallInfo` in the Go source); arguments stay an opaque JSON string. -/
structure PToolCall where
  id : String
  name : String
  args : String
deriving Repr, DecidableEq

/-- Translation of `providers.Message` (role, content, tool calls, and the
`tool_call_id` used for tool-result messages). -/
structure PMessage where
  role : String
  content : String
  toolCalls : List PToolCall := []
  toolCallID : String := ""
deriving Repr, DecidableEq

/-- Translation of `estimateTokens` (loop.go): sum of `len(content) / 4`
over the messages. -/
def estimateTokens (messages : List PMessage) : Nat :=
  messages.foldl (fun total m => total + m.content.length / 4) 0

/-- The agent's `summarizing sync.Map` restricted to its use as a key set:
`LoadOrStore(key, true)` reports whether the key was already present and
stores it otherwise. -/
def loadOrStore (keys : List String) (key : String) : Bool × List String :=
  if keys.contains key then (true, keys)
  else (false, keys ++ [key])

/-- Translation of `maybeSummarize` (loop.go).  Returns whether a
summarization task was started, together with the updated `summarizing`
key set.  `contextWindow * 75 / 100` uses Go integer division. -/
def maybeSummarize (newHistory : List PMessage) (contextWindow : Nat)
    (summarizing : List String) (sessionKey : String) : Bool × List String :=
  let tokenEstimate := estimateTokens newHistory
  let threshold := contextWindow * 75 / 100
  if newHistory.length > 20 || tokenEstimate > threshold then
    let (loading, summarizing') := loadOrStore summarizing sessionKey
    if !loading then (true, summarizing')
    else (false, summarizing')
  else (false, summarizing)

/- ## Contacts store channel defaults (GetDefault, pkg/contacts/store.go) -/

/-- Translation of `(*Store).GetDefault`: the `defaults map[string]string`
is an association list with unique keys; lookup of the channel first, then
of the global `"*"` key, then the empty string. -/
def getDefault (defaults : List (String × String)) (channel : String) : String :=
  match defaults.lookup channel with
  | some inst => inst
  | none =>
    match defaults.lookup "*" with
    | some inst => inst
    | none => ""

/- ## Message bus (src/pkg/bus/bus.go) -/

/-- Translation of `bus.InboundMessage`. -/
structure InboundMessage where
  channel : String := ""
  senderID : String := ""
  chatID : String := ""
  content : String := ""
  media : List String := []
  sessionKey : String := ""
deriving Repr, DecidableEq, Inhabited

/-- Translation of `bus.OutboundMessage`. -/
structure OutboundMessage where
  channel : String := ""
  chatID : String := ""
  content : String := ""
deriving Repr, DecidableEq, Inhabited

/-- A Go buffered channel: FIFO buffer, capacity, closed flag. -/
structure GoChan (α : Type) where
  buffer : List α
  capacity : Nat
  closed : Bool
deriving Repr, DecidableEq

/-- Outcome of a Go channel send. -/
inductive SendResult (α : Type) where
  /-- The value was enqueued; the updated channel is carried. -/
  | sent (c : GoChan α)
  /-- The buffer is full: the sender blocks. -/
  | senderBlocks
  /-- Send on a closed channel: the goroutine panics. -/
  | panicked
deriving Repr, DecidableEq

/-- Go semantics of `ch <- v` on a buffered channel. -/
def chanSend (c : GoChan α) (v : α) : SendResult α :=
  if c.closed then .panicked
  else if c.buffer.length < c.capacity then
    .sent { c with buffer := c.buffer ++ [v] }
  else .senderBlocks

/-- Outcome of a Go channel receive. -/
inductive RecvResult (α : Type) where
  /-- A value was received (`ok = true` case of `v, ok := <-ch`); for a
  closed, drained channel this is the zero value with `ok = false`. -/
  | received (v : α) (ok : Bool) (c : GoChan α)
  /-- Empty open buffer: the receiver blocks. -/
  | receiverBlocks
deriving Repr, DecidableEq

/-- Go semantics of `v, ok := <-ch` on a buffered channel. -/
def chanRecv [Inhabited α] (c : GoChan α) : RecvResult α :=
  match c.buffer with
  | v :: rest => .received v true { c with buffer := rest }
  | [] =>
    if c.closed then .received default false c
    else .receiverBlocks

/-- Observer handles are identified by creation index (each `Subscribe`
makes a fresh channel, so handles are pairwise distinct). -/
abbrev ObserverHandle := Nat

/-- Translation of `bus.MessageBus`: the two bounded queues plus the
observer list (handler map omitted; no claim touches it). -/
structure MessageBus where
  inbound : GoChan InboundMessage
  outbound : GoChan OutboundMessage
  observers : List ObserverHandle
deriving Repr, DecidableEq

/-- Translation of `NewMessageBus`: inbound and outbound channels of
capacity 100, no observers. -/
def newMessageBus : MessageBus :=
  { inbound := ⟨[], 100, false⟩
    outbound := ⟨[], 100, false⟩
    observers := [] }

/-- Translation of `(*MessageBus).Close`: `close(mb.inbound)` and
`close(mb.outbound)` — the Go channels are closed, nothing else. -/
def busClose (mb : MessageBus) : MessageBus :=
  { mb with
    inbound := { mb.inbound with closed := true }
    outbound := { mb.outbound with closed := true } }

/-- How a publish call on the bus ends.  The `queueClosedError`
constructor exists so the specification's claimed behavior is statable;
the translated code never produces it. -/
inductive PublishOutcome where
  /-- The message was enqueued and observers notified. -/
  | published (mb : MessageBus)
  /-- The queue is full: the caller blocks. -/
  | publisherBlocks
  /-- Send on a closed channel: runtime panic. -/
  | panicked
  /-- A `QueueClosed` error return (claimed by the spec, absent from the code). -/
  | queueClosedError
deriving Repr, DecidableEq

/-- Translation of `(*MessageBus).PublishInbound`: a plain channel send
followed by observer notification (the notification does not affect the
queues and is dropped per-observer when full, so it is not modelled
further here). -/
def publishInbound (mb : MessageBus) (msg : InboundMessage) : PublishOutcome :=
  match chanSend mb.inbound msg with
  | .sent c => .published { mb with inbound := c }
  | .senderBlocks => .publisherBlocks
  | .panicked => .panicked

/-- Translation of `(*MessageBus).PublishOutbound`. -/
def publishOutbound (mb : MessageBus) (msg : OutboundMessage) : PublishOutcome :=
  match chanSend mb.outbound msg with
  | .sent c => .published { mb with outbound := c }
  | .senderBlocks => .publisherBlocks
  | .panicked => .panicked

/-- How a consume call on the bus ends; `queueClosedResult` is the
spec-claimed wake-up value, never produced by the translated code. -/
inductive ConsumeOutcome (α : Type) where
  /-- The function returned `(v, ok)`. -/
  | returned (v : α) (ok : Bool) (mb : MessageBus)
  /-- Neither queue data nor cancellation: the consumer stays blocked. -/
  | consumerBlocks
  /-- A `QueueClosed` result (claimed by the spec, absent from the code). -/
  | queueClosedResult
deriving Repr, DecidableEq

/-- Translation of `(*MessageBus).ConsumeInbound`: `select` over the data
channel and `ctx.Done()`.  `ctxDone` tells whether the context is already
cancelled; when both branches are ready Go picks one at random, so the
data branch is modelled only for a live context. -/
def consumeInbound (mb : MessageBus) (ctxDone : Bool) :
    ConsumeOutcome InboundMessage :=
  match chanRecv mb.inbound with
  | .received v _ c =>
    if ctxDone then .returned default false mb
    else .returned v true { mb with inbound := c }
  | .receiverBlocks =>
    if ctxDone then .returned default false mb
    else .consumerBlocks

/-- Translation of `(*MessageBus).SubscribeOutbound` (the outbound
consumer), mirroring `ConsumeInbound`. -/
def consumeOutbound (mb : MessageBus) (ctxDone : Bool) :
    ConsumeOutcome OutboundMessage :=
  match chanRecv mb.outbound with
  | .received v _ c =>
    if ctxDone then .returned default false mb
    else .returned v true { mb with outbound := c }
  | .receiverBlocks =>
    if ctxDone then .returned default false mb
    else .consumerBlocks

/-- Translation of `(*MessageBus).Unsubscribe`: scan the observer list for
the handle, remove the first match and close it, then return.  The result
is the new observer list together with the handle that was closed by this
call, if any. -/
def unsubscribe (observers : List ObserverHandle) (ch : ObserverHandle) :
    List ObserverHandle × Option ObserverHandle :=
  match observers with
  | [] => ([], none)
  | obs :: rest =>
    if obs = ch then (rest, some ch)
    else
      let (rest', closedHandle) := unsubscribe rest ch
      (obs :: rest', closedHandle)

/- ## JSON values and Go `json.Marshal` (compact form, map keys in Go's
   sorted-key marshal order) -/

/-- JSON values as decoded into `interface{}` by `encoding/json`.  Object
fields are kept in the order Go's `json.Marshal` emits them (sorted keys);
the concrete objects below are built that way. -/
inductive Json where
  | null
  | bool (b : Bool)
  | num (n : Int)
  | str (s : String)
  | arr (elems : List Json)
  | obj (fields : List (String × Json))
deriving Repr

/-- String escaping for the JSON strings appearing here (quote and
backslash; the concrete inputs contain no control characters). -/
def jsonEscape (s : String) : String :=
  String.mk (s.data.foldr (fun c acc =>
    if c = '"' || c = '\\' then '\\' :: c :: acc else c :: acc) [])

mutual

/-- Compact serialization matching Go `json.Marshal` on the embedded
values. -/
def jsonMarshal : Json → String
  | .null => "null"
  | .bool b => if b then "true" else "false"
  | .num n => toString n
  | .str s => "\"" ++ jsonEscape s ++ "\""
  | .arr elems => "[" ++ goJoin "," (jsonMarshalList elems) ++ "]"
  | .obj fields => "\x7b" ++ goJoin "," (jsonMarshalFields fields) ++ "\x7d"

/-- Serialize array elements in order. -/
def jsonMarshalList : List Json → List String
  | [] => []
  | v :: rest => jsonMarshal v :: jsonMarshalList rest

/-- Serialize object fields in order. -/
def jsonMarshalFields : List (String × Json) → List String
  | [] => []
  | (k, v) :: rest => ("\"" ++ jsonEscape k ++ "\":" ++ jsonMarshal v) :: jsonMarshalFields rest

end

/- ## MCP client `CallTool` (pkg/mcp client, src/unnamed/part_004) -/

/-- The decoded `tools/call` result envelope: `content` is a list of JSON
objects (`[]map[string]interface{}`), `structuredContent` an arbitrary
JSON value (`Json.null` when absent or JSON `null`), plus the `isError`
flag. -/
structure ToolCallEnvelope where
  content : List (List (String × Json))
  structuredContent : Json
  isError : Bool
deriving Repr

/-- Field access `item["k"]` on a decoded JSON object. -/
def itemField (item : List (String × Json)) (k : String) : Option Json :=
  item.lookup k

/-- The Go type assertion `item["type"].(string)` with its zero-value
default. -/
def itemTypeString (item : List (String × Json)) : String :=
  match itemField item "type" with
  | some (.str s) => s
  | _ => ""

/-- Body of the part-collection loop in `CallTool`: a `text` part whose
`text` field is a string with non-whitespace content contributes the text
(the `continue`), any other part contributes `json.Marshal` of itself,
appended only when the marshalled bytes are non-empty. -/
def callToolStep (parts : List String) (item : List (String × Json)) : List String :=
  let marshalled := jsonMarshal (.obj item)
  if itemTypeString item = "text" then
    match itemField item "text" with
    | some (.str txt) =>
      if goTrimSpace txt ≠ "" then parts ++ [txt]
      else if marshalled.length > 0 then parts ++ [marshalled] else parts
    | _ => if marshalled.length > 0 then parts ++ [marshalled] else parts
  else if marshalled.length > 0 then parts ++ [marshalled] else parts

/-- Translation of the part-collection loop in `CallTool`. -/
def callToolParts (content : List (List (String × Json))) : List String :=
  content.foldl callToolStep []

/-- Translation of the output assembly in `CallTool`: join the collected
parts with newlines; with no parts, marshal `structuredContent` when it is
non-nil, else the literal two-character object braces. -/
def callToolOutput (env : ToolCallEnvelope) : String :=
  let parts := callToolParts env.content
  if parts.length > 0 then goJoin "\n" parts
  else
    match env.structuredContent with
    | .null => "\x7b\x7d"
    | sc => jsonMarshal sc

/-- Translation of `(*Client).CallTool` after the `tools/call` request:
the request either fails (transport error `e`, propagated with empty
output) or yields a decoded envelope; an `isError` envelope still returns
the assembled output, paired with the fixed error. -/
def callTool (reqResult : Except String ToolCallEnvelope) :
    String × Option String :=
  match reqResult with
  | .error e => ("", some e)
  | .ok env =>
    let output := callToolOutput env
    if env.isError then (output, some "mcp tool call returned error")
    else (output, none)

/-- The assembly rule in the words of the specification's claim: every
`text` part contributes its text verbatim, every other part its JSON
serialization, joined with newlines; when `content` is empty the JSON
serialization of `structuredContent` is used. -/
def claimedCallToolOutput (env : ToolCallEnvelope) : String :=
  if env.content.isEmpty then jsonMarshal env.structuredContent
  else
    goJoin "\n" (env.content.map (fun item =>
      if itemTypeString item = "text" then
        match itemField item "text" with
        | some (.str txt) => txt
        | _ => ""
      else jsonMarshal (.obj item)))

/-- The amended per-part rule: a part contributes its `text` field verbatim
only when its type is `text` and that field is a string with
non-whitespace content; every other part contributes its JSON
serialization. -/
def amendedContribution (item : List (String × Json)) : String :=
  match itemField item "text" with
  | some (.str txt) =>
    if itemTypeString item = "text" && goTrimSpace txt ≠ "" then txt
    else jsonMarshal (.obj item)
  | _ => jsonMarshal (.obj item)

/-- The assembly rule as amended: each part contributes per
`amendedContribution`, joined with newlines; when `content` is empty,
`structuredContent` is marshalled when non-null and the empty JSON object
stands in otherwise. -/
def amendedCallToolOutput (env : ToolCallEnvelope) : String :=
  if env.content.isEmpty then
    match env.structuredContent with
    | .null => "\x7b\x7d"
    | sc => jsonMarshal sc
  else
    goJoin "\n" (env.content.map amendedContribution)

/- ## MCP client close and pending-request resolution
   (src/unnamed/part_004: closeWithError, request) -/

/-- The client state relevant to shutdown: the pending-request map
(id ↦ waiter; each waiter is a one-slot channel), the `closed` signal
channel, the recorded close reason, and the once-guard that
`closeOnce.Do` provides (coinciding with `closed`). -/
structure ClientConn where
  pending : List Int
  closedFlag : Bool
  closeErr : Option String
  stdinClosed : Bool
  processKilled : Bool
deriving Repr, DecidableEq

/-- Translation of `(*Client).closeWithError`: under `closeOnce.Do`, record
the reason, close the `closed` channel, close stdin, kill the process, and
resolve every pending waiter with the reason (or the generic message when
the reason is nil), removing it from the map.  The second component lists
the resolutions delivered to the waiters, in map order. -/
def closeWithError (c : ClientConn) (err : Option String) :
    ClientConn × List (Int × String) :=
  if c.closedFlag then (c, [])
  else
    ({ pending := []
       closedFlag := true
       closeErr := err
       stdinClosed := true
       processKilled := true },
     c.pending.map (fun id => (id, err.getD "mcp client closed")))

/-- The tail of `(*Client).request` for a caller whose write succeeded and
whose context stays live: the `select` over `c.closed` and the waiter
channel.  After a close both branches are ready and Go picks one at
random (`pickWaiter`); `delivered` is the resolution sitting in the
waiter's one-slot buffer, if any.  The result is the error the blocked
caller returns with. -/
def requestWakeError (c : ClientConn) (delivered : Option String)
    (pickWaiter : Bool) : Option String :=
  if pickWaiter then delivered
  else if c.closedFlag then
    match c.closeErr with
    | some e => some e
    | none => some "mcp client closed"
  else none

/- ## MCP tool registration at agent construction
   (NewAgentLoopForAgent, src/pkg/agent/loop.go; NewMCPTool / sanitizeToolToken,
    src/pkg/tools/mcp.go) -/

/-- One remote tool reported by an MCP server (`mcp.RemoteTool`). -/
structure RemoteTool where
  serverName : String
  name : String
  description : String := ""
deriving Repr, DecidableEq

/-- Translation of `sanitizeToolToken` (pkg/tools/mcp.go). -/
def sanitizeToolToken (v : String) : String :=
  let v := goTrimSpace (goToLower v)
  if v = "" then "unknown"
  else goReplaceAll (goReplaceAll v " " "_") "/" "_"

/-- The local name `NewMCPTool` gives a remote tool:
`mcp.<sanitized server>.<sanitized remote name>`. -/
def mcpLocalName (remote : RemoteTool) : String :=
  "mcp." ++ sanitizeToolToken remote.serverName ++ "." ++ sanitizeToolToken remote.name

/-- Modelled from the spec: the `ToolRegistry` implementation is not under
src/ (only its documentation and callers are).  Spec §4.3 — "Named map of
tool descriptors … name unique within registry"; the docs give
`tools map[string]Tool`.  The registry is the map as an association list
with unique keys; `Get` is map lookup. -/
def regGet : List (String × RemoteTool) → String → Option RemoteTool
  | [], _ => none
  | (k, v) :: rest, name => if k = name then some v else regGet rest name

/-- Modelled from the spec: `Register(tool)` writes the tool under its
name — a Go map assignment, replacing any existing binding for that key. -/
def regRegister : List (String × RemoteTool) → String → RemoteTool →
    List (String × RemoteTool)
  | [], name, tool => [(name, tool)]
  | (k, v) :: rest, name, tool =>
    if k = name then (k, tool) :: rest
    else (k, v) :: regRegister rest name tool

/-- Translation of the MCP registration loop in `NewAgentLoopForAgent`
(loop.go): for each remote tool, skip it when the runtime has no live
client for its server; build its local name; skip it when the registry
already holds that name; otherwise register it and bump the count.
`clientOk` stands for `mcpRuntime.Client(server)` returning a usable
client. -/
def registerMCPTools (clientOk : String → Bool) :
    List (String × RemoteTool) → Nat → List RemoteTool →
    List (String × RemoteTool) × Nat
  | reg, count, [] => (reg, count)
  | reg, count, remote :: rest =>
    if !(clientOk remote.serverName) then
      registerMCPTools clientOk reg count rest
    else
      let toolName := mcpLocalName remote
      match regGet reg toolName with
      | some _ => registerMCPTools clientOk reg count rest
      | none =>
        registerMCPTools clientOk (regRegister reg toolName remote) (count + 1) rest

/- ## Agent loop turn processing (runAgentLoop / runLLMIteration,
   src/pkg/agent/loop.go) -/

/-- One LLM chat response (`provider.Chat` success value restricted to the
fields the loop reads). -/
structure ChatResponse where
  content : String
  toolCalls : List PToolCall
deriving Repr, DecidableEq

/-- Execution of one iteration's tool calls (the inner `for` loop of
`runLLMIteration`): each call is refused with the fixed policy string or
executed (`toolExec` standing for `tools.ExecuteWithContext`, its error
rendered as `Error: <reason>`), and the resulting tool message is appended
to both the transcript and the session. -/
def execToolCalls (mcpPolicy : SessionMCPPolicy)
    (toolExec : String → String → Except String String)
    (acc : List PMessage × List PMessage) (calls : List PToolCall) :
    List PMessage × List PMessage :=
  calls.foldl (fun (acc : List PMessage × List PMessage) tc =>
    let (messages, session) := acc
    let result :=
      if !(isToolAllowedByPolicy tc.name mcpPolicy) then
        "Error: MCP tool is not allowed for this contact."
      else
        match toolExec tc.name tc.args with
        | .ok r => r
        | .error err => "Error: " ++ err
    let toolResultMsg : PMessage := { role := "tool", content := result, toolCallID := tc.id }
    (messages ++ [toolResultMsg], session ++ [toolResultMsg])) acc

/-- Translation of `runLLMIteration` (loop.go).  `provider i` is the LLM
call of iteration `i` (counting from 1): a transport error or a response.
The `for iteration < maxIterations` loop is run on the remaining-iteration
count; the session is threaded explicitly (`AddFullMessage` appends).  On
a transport error the wrapped error is returned and nothing was added by
the failing iteration; on a response without tool calls the content is
final; otherwise the assistant message and the tool results are appended
and the loop continues.  Exhausting the iterations leaves the final
content empty. -/
def runLLMIterationAux (provider : Nat → Except String ChatResponse)
    (toolExec : String → String → Except String String)
    (mcpPolicy : SessionMCPPolicy) :
    Nat → Nat → List PMessage → List PMessage →
    Except String String × Nat × List PMessage
  | 0, iteration, _messages, session => (.ok "", iteration, session)
  | remaining + 1, iteration, messages, session =>
    let iteration := iteration + 1
    match provider iteration with
    | .error e => (.error ("LLM call failed: " ++ e), iteration, session)
    | .ok response =>
      if response.toolCalls.isEmpty then
        (.ok response.content, iteration, session)
      else
        let assistantMsg : PMessage :=
          { role := "assistant", content := response.content, toolCalls := response.toolCalls }
        let messages := messages ++ [assistantMsg]
        let session := session ++ [assistantMsg]
        let (messages, session) :=
          execToolCalls mcpPolicy toolExec (messages, session) response.toolCalls
        runLLMIterationAux provider toolExec mcpPolicy remaining iteration messages session

/-- Entry to the iteration loop with the agent's `maxIterations` budget. -/
def runLLMIteration (provider : Nat → Except String ChatResponse)
    (toolExec : String → String → Except String String)
    (mcpPolicy : SessionMCPPolicy) (maxIterations : Nat)
    (messages session : List PMessage) :
    Except String String × Nat × List PMessage :=
  runLLMIterationAux provider toolExec mcpPolicy maxIterations 0 messages session

/-- Translation of the session-visible core of `runAgentLoop` (loop.go):
append the user message to the session, run the iteration loop, propagate
an error as-is (steps 5–7 are skipped), otherwise substitute the default
response for empty content and append the final assistant message.
Returns the turn's result and the session after the turn.  Context
building, summarization and outbound delivery do not touch the session
and are omitted here. -/
def runAgentLoop (provider : Nat → Except String ChatResponse)
    (toolExec : String → String → Except String String)
    (mcpPolicy : SessionMCPPolicy) (maxIterations : Nat)
    (userMessage defaultResponse : String)
    (contextMessages session : List PMessage) :
    Except String String × List PMessage :=
  let session := session ++ [{ role := "user", content := userMessage }]
  match runLLMIterationAux provider toolExec mcpPolicy maxIterations 0 contextMessages session with
  | (.error e, _, session) => (.error e, session)
  | (.ok finalContent, _, session) =>
    let finalContent := if finalContent = "" then defaultResponse else finalContent
    (.ok finalContent, session ++ [{ role := "assistant", content := finalContent }])

/- ## Helper lemmas -/

/-- Unsubscribing a handle that is not in the observer list leaves the list
unchanged and closes nothing. -/
theorem unsubscribe_not_mem (observers : List ObserverHandle)
    (h : ObserverHandle) (hnot : h ∉ observers) :
    unsubscribe observers h = (observers, none) := by
  induction observers with
  | nil => rfl
  | cons obs rest ih =>
    have hne : ¬ obs = h := fun e => hnot (e ▸ List.mem_cons_self _ _)
    have hrest : h ∉ rest := fun hm => hnot (List.mem_cons_of_mem _ hm)
    simp [unsubscribe, hne, ih hrest]

/-- After unsubscribing a handle from a duplicate-free observer list, the
handle is gone. -/
theorem unsubscribe_result_not_mem (observers : List ObserverHandle)
    (h : ObserverHandle) (hnodup : observers.Nodup) :
    h ∉ (unsubscribe observers h).1 := by
  induction observers with
  | nil => simp [unsubscribe]
  | cons obs rest ih =>
    have hobs : obs ∉ rest := (List.nodup_cons.mp hnodup).1
    have hrest : rest.Nodup := (List.nodup_cons.mp hnodup).2
    by_cases he : obs = h
    · subst he
      simpa [unsubscribe] using hobs
    · simp only [unsubscribe, if_neg he]
      intro hmem
      rcases List.mem_cons.mp hmem with h1 | h1
      · exact he h1.symm
      · exact ih hrest h1

/-- Marshalled JSON objects are never the empty string, so the
`len(b) > 0` guard in `CallTool` always appends. -/
theorem jsonMarshal_obj_length_pos (item : List (String × Json)) :
    0 < (jsonMarshal (.obj item)).length := by
  simp [jsonMarshal, String.length_append]
  exact Or.inl (Or.inl (by decide))

/-- One step of the `CallTool` part loop appends exactly the amended
per-part contribution. -/
theorem callToolStep_eq (parts : List String) (item : List (String × Json)) :
    callToolStep parts item = parts ++ [amendedContribution item] := by
  have hpos : 0 < (jsonMarshal (.obj item)).length := jsonMarshal_obj_length_pos item
  unfold callToolStep amendedContribution
  by_cases ht : itemTypeString item = "text"
  · cases hf : itemField item "text" with
    | none => simp [ht, hf, hpos]
    | some v =>
      cases v with
      | str txt => by_cases htr : goTrimSpace txt = "" <;> simp [ht, hf, htr, hpos]
      | null => simp [ht, hf, hpos]
      | bool b => simp [ht, hf, hpos]
      | num n => simp [ht, hf, hpos]
      | arr xs => simp [ht, hf, hpos]
      | obj fs => simp [ht, hf, hpos]
  · cases hf : itemField item "text" with
    | none => simp [ht, hf, hpos]
    | some v => cases v <;> simp [ht, hf, hpos]

/-- The part loop collects the amended contributions in order. -/
theorem foldl_callToolStep (content : List (List (String × Json))) :
    ∀ acc : List String,
      content.foldl callToolStep acc = acc ++ content.map amendedContribution := by
  induction content with
  | nil => intro acc; simp
  | cons item rest ih =>
    intro acc
    rw [List.foldl_cons, callToolStep_eq, ih]
    simp

/-- The `CallTool` output assembly coincides with the amended
specification wording on every envelope. -/
theorem callToolOutput_eq_amended (env : ToolCallEnvelope) :
    callToolOutput env = amendedCallToolOutput env := by
  unfold callToolOutput amendedCallToolOutput callToolParts
  rw [foldl_callToolStep]
  cases env.content with
  | nil => simp
  | cons item rest => simp

/-- Looking up a name right after registering it yields the registered
tool. -/
theorem regGet_regRegister_self (reg : List (String × RemoteTool))
    (name : String) (tool : RemoteTool) :
    regGet (regRegister reg name tool) name = some tool := by
  induction reg with
  | nil => simp [regRegister, regGet]
  | cons kv rest ih =>
    obtain ⟨k, v⟩ := kv
    by_cases hk : k = name
    · subst hk
      simp [regRegister, regGet]
    · simp [regRegister, regGet, hk, ih]

/-- Registering one name does not disturb lookups of other names. -/
theorem regGet_regRegister_ne (reg : List (String × RemoteTool))
    (name name' : String) (tool : RemoteTool) (h : name' ≠ name) :
    regGet (regRegister reg name tool) name' = regGet reg name' := by
  have h' : ¬ name = name' := fun e => h e.symm
  induction reg with
  | nil => simp [regRegister, regGet, h']
  | cons kv rest ih =>
    obtain ⟨k, v⟩ := kv
    by_cases hk : k = name
    · subst hk
      simp [regRegister, regGet, h']
    · simp [regRegister, regGet, hk, ih]

/-- Registering either replaces an existing binding (same key set) or
appends a fresh key. -/
theorem regRegister_keys (reg : List (String × RemoteTool))
    (name : String) (tool : RemoteTool) :
    (regRegister reg name tool).map Prod.fst =
      if name ∈ reg.map Prod.fst then reg.map Prod.fst
      else reg.map Prod.fst ++ [name] := by
  induction reg with
  | nil => simp [regRegister]
  | cons kv rest ih =>
    obtain ⟨k, v⟩ := kv
    by_cases hk : k = name
    · subst hk
      simp [regRegister]
    · by_cases hmem : name ∈ rest.map Prod.fst
      · simp [regRegister, hk, ih, hmem]
      · have hnk : name ≠ k := fun e => hk e.symm
        have hnot : ¬ name ∈ (k :: rest.map Prod.fst) := by
          simp [hmem, hnk]
        simp only [List.map_cons] at hnot ⊢
        simp [regRegister, hk, ih, hmem, hnot]

/-- Registering preserves key uniqueness. -/
theorem regRegister_nodup (reg : List (String × RemoteTool))
    (name : String) (tool : RemoteTool) (h : (reg.map Prod.fst).Nodup) :
    ((regRegister reg name tool).map Prod.fst).Nodup := by
  rw [regRegister_keys]
  by_cases hmem : name ∈ reg.map Prod.fst
  · simpa [hmem] using h
  · simp only [hmem, if_false]
    rw [List.nodup_append]
    refine ⟨h, List.nodup_singleton name, ?_⟩
    intro a ha hmem1
    simp at hmem1
    exact hmem (hmem1 ▸ ha)

/-- The MCP registration loop preserves key uniqueness of the registry. -/
theorem registerMCPTools_nodup (clientOk : String → Bool)
    (remotes : List RemoteTool) :
    ∀ (reg : List (String × RemoteTool)) (count : Nat),
      (reg.map Prod.fst).Nodup →
      (((registerMCPTools clientOk reg count remotes).1).map Prod.fst).Nodup := by
  induction remotes with
  | nil => intro reg count h; simpa [registerMCPTools] using h
  | cons r rest ih =>
    intro reg count h
    by_cases hok : clientOk r.serverName
    · cases hreg : regGet reg (mcpLocalName r) with
      | some t => simpa [registerMCPTools, hok, hreg] using ih reg count h
      | none =>
        have h' := regRegister_nodup reg (mcpLocalName r) r h
        simpa [registerMCPTools, hok, hreg] using
          ih (regRegister reg (mcpLocalName r) r) (count + 1) h'
    · simpa [registerMCPTools, hok] using ih reg count h

/-- A name already bound before the MCP registration loop keeps its
binding: the loop's duplicate guard skips it. -/
theorem registerMCPTools_get_preserved (clientOk : String → Bool)
    (remotes : List RemoteTool) :
    ∀ (reg : List (String × RemoteTool)) (count : Nat) (name : String),
      (regGet reg name).isSome →
      regGet (registerMCPTools clientOk reg count remotes).1 name = regGet reg name := by
  induction remotes with
  | nil => intro reg count name _; simp [registerMCPTools]
  | cons r rest ih =>
    intro reg count name hsome
    by_cases hok : clientOk r.serverName
    · cases hreg : regGet reg (mcpLocalName r) with
      | some t => simpa [registerMCPTools, hok, hreg] using ih reg count name hsome
      | none =>
        have hne : name ≠ mcpLocalName r := by
          intro e
          rw [e] at hsome
          simp [hreg] at hsome
        have hpres : regGet (regRegister reg (mcpLocalName r) r) name = regGet reg name :=
          regGet_regRegister_ne reg (mcpLocalName r) name r hne
        have hsome' : (regGet (regRegister reg (mcpLocalName r) r) name).isSome := by
          rw [hpres]; exact hsome
        have hstep := ih (regRegister reg (mcpLocalName r) r) (count + 1) name hsome'
        rw [hpres] at hstep
        simpa [registerMCPTools, hok, hreg] using hstep
    · simpa [registerMCPTools, hok] using ih reg count name hsome

/-- A name unbound before the MCP registration loop ends bound to the
first remote tool (with a live client) whose local name matches. -/
theorem registerMCPTools_lookup (clientOk : String → Bool)
    (remotes : List RemoteTool) :
    ∀ (reg : List (String × RemoteTool)) (count : Nat) (name : String),
      regGet reg name = none →
      regGet (registerMCPTools clientOk reg count remotes).1 name =
        (remotes.filter
          (fun r => clientOk r.serverName && mcpLocalName r = name)).head? := by
  induction remotes with
  | nil => intro reg count name h; simpa [registerMCPTools] using h
  | cons r rest ih =>
    intro reg count name hnone
    by_cases hok : clientOk r.serverName
    · cases hreg : regGet reg (mcpLocalName r) with
      | some t =>
        have hne : ¬ (mcpLocalName r = name) := by
          intro e
          rw [← e] at hnone
          rw [hnone] at hreg
          exact Option.noConfusion hreg
        have hstep := ih reg count name hnone
        simpa [registerMCPTools, hok, hreg, List.filter_cons, hne] using hstep
      | none =>
        by_cases hname : mcpLocalName r = name
        · subst hname
          have hself : regGet (regRegister reg (mcpLocalName r) r) (mcpLocalName r) = some r :=
            regGet_regRegister_self reg (mcpLocalName r) r
          have hpres := registerMCPTools_get_preserved clientOk rest
            (regRegister reg (mcpLocalName r) r) (count + 1) (mcpLocalName r)
            (by rw [hself]; rfl)
          rw [hself] at hpres
          simpa [registerMCPTools, hok, hreg, List.filter_cons] using hpres
        · have hpres : regGet (regRegister reg (mcpLocalName r) r) name = regGet reg name :=
            regGet_regRegister_ne reg (mcpLocalName r) name r (fun e => hname e.symm)
          have hnone' : regGet (regRegister reg (mcpLocalName r) r) name = none := by
            rw [hpres]; exact hnone
          have hstep := ih (regRegister reg (mcpLocalName r) r) (count + 1) name hnone'
          simpa [registerMCPTools, hok, hreg, List.filter_cons, hname] using hstep
    · have hstep := ih reg count name hnone
      simpa [registerMCPTools, hok, List.filter_cons] using hstep

/- ## Claim theorems -/

/-- C1: for every session MCP policy and every registered tool, the tool is
included in the definitions presented to the LLM and allowed to execute
iff the allowed set is empty, or the tool's name does not resolve to an
MCP server name, or the resolved server name is a member of the allowed
set. -/
theorem tool_policy_filter_iff (p : SessionMCPPolicy) (defs : List ToolDef)
    (d : ToolDef) (hd : d ∈ defs) :
    (d ∈ getToolDefinitionsForPolicy p defs ∧ isToolAllowedByPolicy d.name p = true) ↔
    (p.allowed = [] ∨ extractMCPServerName d.name = "" ∨
      extractMCPServerName d.name ∈ p.allowed) := by
  unfold getToolDefinitionsForPolicy isToolAllowedByPolicy
  cases hemp : p.allowed.isEmpty with
  | true =>
    have : p.allowed = [] := by simpa using hemp
    simp [hemp, this, hd]
  | false =>
    have hne : ¬ p.allowed = [] := by simp [← List.isEmpty_iff, hemp]
    by_cases hx : extractMCPServerName d.name = ""
    · simp [hemp, hx, hd, hne, List.mem_filter, isToolAllowedByPolicy]
    · simp [hemp, hx, hd, hne, List.mem_filter, isToolAllowedByPolicy,
        List.contains, List.elem_iff]

/-- C1 witness: the policy allowing only server `fs` keeps `mcp.fs.read`. -/
theorem tool_policy_filter_iff_witness :
    ((⟨"mcp.fs.read", "read"⟩ : ToolDef) ∈
        [(⟨"mcp.fs.read", "read"⟩ : ToolDef), ⟨"mcp.web.get", "get"⟩]) ∧
    (((⟨"mcp.fs.read", "read"⟩ : ToolDef) ∈
        getToolDefinitionsForPolicy ⟨["fs"]⟩
          [⟨"mcp.fs.read", "read"⟩, ⟨"mcp.web.get", "get"⟩] ∧
      isToolAllowedByPolicy "mcp.fs.read" ⟨["fs"]⟩ = true) ↔
      ((["fs"] : List String) = [] ∨ extractMCPServerName "mcp.fs.read" = "" ∨
        extractMCPServerName "mcp.fs.read" ∈ (["fs"] : List String))) :=
  ⟨by decide,
   tool_policy_filter_iff ⟨["fs"]⟩ [⟨"mcp.fs.read", "read"⟩, ⟨"mcp.web.get", "get"⟩]
     ⟨"mcp.fs.read", "read"⟩ (by decide)⟩

/-- C2: the dot and single-underscore shapes extract the first capture as
the server name, but `mcp__fs__read` — claimed by the spec to extract
`fs` — returns the empty string: the `mcp_` prefix branch matches first,
splits on single underscores, and returns the empty segment between the
two leading underscores, so double-underscore MCP names are treated as
non-MCP (the dedicated third branch in the source is unreachable). -/
theorem extract_mcp_server_name_shapes :
    extractMCPServerName "mcp.fs.read" = "fs" ∧
    extractMCPServerName "mcp_fs_read" = "fs" ∧
    extractMCPServerName "mcp__fs__read" = "" ∧
    extractMCPServerName "readfile" = "" := by decide

/-- C3 counterexample: with a tool-calling first iteration and a transport
error at the second LLM call, the turn returns the wrapped error, but the
session ends `user, assistant(tool_calls), tool` — the last entry is the
tool result, not the user message, refuting the claim's "at every
iteration" clause. -/
theorem llm_error_midturn_counterexample :
    (runAgentLoop
        (fun i => if i = 1 then .ok ⟨"", [⟨"c1", "read_file", ""⟩]⟩
                  else .error "connection refused")
        (fun _ _ => .ok "OK") ⟨[]⟩ 3 "hello" "fallback" [] []) =
      (.error "LLM call failed: connection refused",
       [⟨"user", "hello", [], ""⟩,
        ⟨"assistant", "", [⟨"c1", "read_file", ""⟩], ""⟩,
        ⟨"tool", "OK", [], "c1"⟩]) ∧
    ((runAgentLoop
        (fun i => if i = 1 then .ok ⟨"", [⟨"c1", "read_file", ""⟩]⟩
                  else .error "connection refused")
        (fun _ _ => .ok "OK") ⟨[]⟩ 3 "hello" "fallback" [] []).2.getLast?).map
        PMessage.role = some "tool" :=
  ⟨rfl, rfl⟩

/-- C3 (amended): an LLM transport error at the first iteration aborts the
turn, returns the wrapped error, records no assistant message, and leaves
the user message as the last session entry; at later iterations the turn
still aborts with the error and the failed iteration records nothing, but
the earlier assistant/tool messages of the turn remain. -/
theorem llm_error_first_iteration_aborts
    (provider : Nat → Except String ChatResponse)
    (toolExec : String → String → Except String String)
    (mcpPolicy : SessionMCPPolicy) (maxIterations : Nat)
    (userMessage defaultResponse : String)
    (contextMessages session : List PMessage) (e : String)
    (hmax : 0 < maxIterations) (herr : provider 1 = .error e) :
    runAgentLoop provider toolExec mcpPolicy maxIterations userMessage
        defaultResponse contextMessages session =
      (.error ("LLM call failed: " ++ e),
       session ++ [{ role := "user", content := userMessage }]) := by
  obtain ⟨m, rfl⟩ : ∃ m, maxIterations = m + 1 :=
    ⟨maxIterations - 1, (Nat.succ_pred_eq_of_pos hmax).symm⟩
  unfold runAgentLoop runLLMIterationAux
  simp [herr]

/-- C3 witness: a provider failing immediately leaves only the user
message in the session. -/
theorem llm_error_first_iteration_aborts_witness :
    (0 : Nat) < 1 ∧
    runAgentLoop (fun _ => .error "boom") (fun _ _ => .ok "") ⟨[]⟩ 1 "hi" "d" [] [] =
      (.error "LLM call failed: boom", [⟨"user", "hi", [], ""⟩]) :=
  ⟨by decide,
   llm_error_first_iteration_aborts (fun _ => .error "boom") (fun _ _ => .ok "")
     ⟨[]⟩ 1 "hi" "d" [] [] "boom" (by decide) rfl⟩

/-- C4 counterexample: after `Close`, neither publish returns a
`QueueClosed` error nor is a blocked consumer woken with a `QueueClosed`
result — no such error exists in the code. -/
theorem bus_queue_closed_counterexample :
    ¬ (publishInbound (busClose newMessageBus) default = .queueClosedError ∧
       publishOutbound (busClose newMessageBus) default = .queueClosedError ∧
       consumeInbound (busClose newMessageBus) false = .queueClosedResult ∧
       consumeOutbound (busClose newMessageBus) false = .queueClosedResult) := by
  decide

/-- C4 (amended): once `Close` has run, publishing on either queue panics
(Go send on a closed channel) instead of enqueueing, and a consumer
blocked on an empty queue is woken with the zero-value message and
`ok = true`, indistinguishable from a successful consume. -/
theorem bus_close_panics_and_zero_value_wakes (mb : MessageBus)
    (mIn : InboundMessage) (mOut : OutboundMessage)
    (hin : mb.inbound.buffer = []) (hout : mb.outbound.buffer = []) :
    publishInbound (busClose mb) mIn = .panicked ∧
    publishOutbound (busClose mb) mOut = .panicked ∧
    consumeInbound (busClose mb) false = .returned default true (busClose mb) ∧
    consumeOutbound (busClose mb) false = .returned default true (busClose mb) := by
  unfold publishInbound publishOutbound consumeInbound consumeOutbound chanSend chanRecv busClose
  simp [hin, hout]

/-- C4 witness: the fresh bus closed immediately shows the panic and the
zero-value wake-up. -/
theorem bus_close_panics_and_zero_value_wakes_witness :
    newMessageBus.inbound.buffer = [] ∧
    publishInbound (busClose newMessageBus) default = .panicked ∧
    consumeInbound (busClose newMessageBus) false =
      .returned default true (busClose newMessageBus) :=
  ⟨rfl,
   (bus_close_panics_and_zero_value_wakes newMessageBus default default rfl rfl).1,
   (bus_close_panics_and_zero_value_wakes newMessageBus default default rfl rfl).2.2.1⟩

/-- C5 counterexample: a `text` part whose text is empty does not
contribute its text verbatim — the code JSON-serializes the whole part —
so the claimed assembly differs from the code on this envelope. -/
theorem calltool_text_verbatim_counterexample :
    callToolOutput ⟨[[("text", .str ""), ("type", .str "text")]], .null, false⟩ ≠
    claimedCallToolOutput ⟨[[("text", .str ""), ("type", .str "text")]], .null, false⟩ := by
  decide

/-- C5 (amended): a `text` part contributes its text verbatim only when
the text is a string with non-whitespace content, every other part its
JSON serialization, joined with newlines; with no contributing part,
`structuredContent` is marshalled when non-null (the empty JSON object
otherwise); an `isError` envelope still returns the assembled text with a
non-nil error, and a transport error returns empty output with the error. -/
theorem calltool_output_amended (req : Except String ToolCallEnvelope) :
    callTool req =
      match req with
      | .error e => ("", some e)
      | .ok env =>
        (amendedCallToolOutput env,
         if env.isError then some "mcp tool call returned error" else none) := by
  cases req with
  | error e => rfl
  | ok env => cases henv : env.isError <;> simp [callTool, callToolOutput_eq_amended, henv]

/-- C6: closing a live MCP client marks it closed, empties the pending
map, resolves every pending request exactly once with the close reason, a
second close resolves nothing further, and a caller blocked in `request`
wakes with that same error through either branch of its `select`. -/
theorem client_close_resolves_pending (c : ClientConn) (err : String)
    (hopen : c.closedFlag = false) :
    (closeWithError c (some err)).1.closedFlag = true ∧
    (closeWithError c (some err)).1.pending = [] ∧
    (closeWithError c (some err)).2 = c.pending.map (fun id => (id, err)) ∧
    (∀ err2, (closeWithError (closeWithError c (some err)).1 err2).2 = []) ∧
    (∀ pick, requestWakeError (closeWithError c (some err)).1 (some err) pick = some err) := by
  unfold closeWithError requestWakeError
  simp [hopen]

/-- C6 witness: closing a client with two pending requests resolves both
with the close reason. -/
theorem client_close_resolves_pending_witness :
    (⟨[1, 2], false, none, false, false⟩ : ClientConn).closedFlag = false ∧
    (closeWithError ⟨[1, 2], false, none, false, false⟩ (some "stdout closed")).2 =
      [(1, "stdout closed"), (2, "stdout closed")] :=
  ⟨rfl,
   (client_close_resolves_pending ⟨[1, 2], false, none, false, false⟩
      "stdout closed" rfl).2.2.1⟩

/-- C7: a summarization task starts iff the history is longer than 20
messages or its token estimate exceeds 75 percent (integer division) of
the context window, and no task is already running for the session key;
while one runs, a re-entrant trigger is a no-op. -/
theorem summarize_trigger_iff (history : List PMessage) (contextWindow : Nat)
    (summarizing : List String) (key : String) :
    ((maybeSummarize history contextWindow summarizing key).1 = true ↔
      ((history.length > 20 ∨ estimateTokens history > contextWindow * 75 / 100) ∧
        summarizing.contains key = false)) ∧
    (summarizing.contains key = true →
      maybeSummarize history contextWindow summarizing key = (false, summarizing)) := by
  unfold maybeSummarize loadOrStore
  by_cases h20 : history.length > 20 <;>
    by_cases htok : estimateTokens history > contextWindow * 75 / 100 <;>
    by_cases hc : key ∈ summarizing <;>
    simp [h20, htok, hc]

/-- C7 witness: a trigger while a task for the same key is running changes
nothing. -/
theorem summarize_trigger_iff_witness :
    (["cli:local"] : List String).contains "cli:local" = true ∧
    maybeSummarize [] 1000 ["cli:local"] "cli:local" = (false, ["cli:local"]) :=
  ⟨by decide, (summarize_trigger_iff [] 1000 ["cli:local"] "cli:local").2 (by decide)⟩

/-- C8: on a duplicate-free observer list, unsubscribing the same handle a
second time leaves the list unchanged and closes nothing. -/
theorem unsubscribe_idempotent (observers : List ObserverHandle)
    (h : ObserverHandle) (hnodup : observers.Nodup) :
    unsubscribe (unsubscribe observers h).1 h = ((unsubscribe observers h).1, none) :=
  unsubscribe_not_mem _ _ (unsubscribe_result_not_mem observers h hnodup)

/-- C8 witness: double unsubscribe of handle 0 from the two-observer
list. -/
theorem unsubscribe_idempotent_witness :
    ([0, 1] : List ObserverHandle).Nodup ∧
    unsubscribe (unsubscribe [0, 1] 0).1 0 = ((unsubscribe [0, 1] 0).1, none) :=
  ⟨by decide, unsubscribe_idempotent [0, 1] 0 (by decide)⟩

/-- C9: starting from a registry with unique names, the MCP registration
loop keeps names unique, and a name not already registered ends up bound
to the first remote tool (with a live client) sanitizing to it — every
later duplicate is skipped. -/
theorem mcp_duplicate_names_first_wins (clientOk : String → Bool)
    (reg0 : List (String × RemoteTool)) (remotes : List RemoteTool)
    (hnodup : (reg0.map Prod.fst).Nodup) :
    (((registerMCPTools clientOk reg0 0 remotes).1).map Prod.fst).Nodup ∧
    (∀ name, regGet reg0 name = none →
      regGet (registerMCPTools clientOk reg0 0 remotes).1 name =
        (remotes.filter
          (fun r => clientOk r.serverName && mcpLocalName r = name)).head?) :=
  ⟨registerMCPTools_nodup clientOk remotes reg0 0 hnodup,
   fun name h => registerMCPTools_lookup clientOk remotes reg0 0 name h⟩

/-- C9 witness: two remotes both sanitizing to `mcp.fs.read` leave the
first one registered. -/
theorem mcp_duplicate_names_first_wins_witness :
    ((([] : List (String × RemoteTool)).map Prod.fst).Nodup) ∧
    regGet (registerMCPTools (fun _ => true) [] 0
        [⟨"fs", "read", ""⟩, ⟨"fs", "read", "dup"⟩]).1 "mcp.fs.read" =
      some ⟨"fs", "read", ""⟩ :=
  ⟨by decide,
   ((mcp_duplicate_names_first_wins (fun _ => true) []
        [⟨"fs", "read", ""⟩, ⟨"fs", "read", "dup"⟩] (by decide)).2
      "mcp.fs.read" rfl).trans (by decide)⟩

/-- C10: `GetDefault` returns the channel-specific default when one is
set, else the global `"*"` default when set, else the empty string. -/
theorem get_default_fallback (defaults : List (String × String)) (channel : String) :
    (∀ v, defaults.lookup channel = some v → getDefault defaults channel = v) ∧
    (defaults.lookup channel = none →
      (∀ v, defaults.lookup "*" = some v → getDefault defaults channel = v) ∧
      (defaults.lookup "*" = none → getDefault defaults channel = "")) := by
  unfold getDefault
  cases h1 : defaults.lookup channel <;> cases h2 : defaults.lookup "*" <;> simp

/-- C10 witness: with only a global default set, an unmapped channel falls
back to it. -/
theorem get_default_fallback_witness :
    ([("*", "general guidance")] : List (String × String)).lookup "telegram" = none ∧
    getDefault [("*", "general guidance")] "telegram" = "general guidance" :=
  ⟨by decide,
   ((get_default_fallback [("*", "general guidance")] "telegram").2 (by decide)).1
     "general guidance" (by decide)⟩
